import Mathlib

/-!
Shallow embedding of the Red Tape Navigator obligation-discovery core
(`src/scraper/scraper.js`) and verification of its specification.

JavaScript values are embedded as follows: strings become `String` (or
`List Char` inside the markup scanners), nullable strings become
`Option String`, machine numbers produced by `parseInt` become `Int`
(`NaN` becomes `none`), arrays become `List`, and thrown exceptions
become `Except String`.  Truthiness of a JS string (`""`, `null` and
`undefined` are falsy) is made explicit where the source relies on it.
-/

namespace RedTape

set_option maxRecDepth 10000
set_option maxHeartbeats 1000000

/-! ## JS primitives -/

/-- Truthiness of a possibly-absent JS string: `undefined`/`null` and `""`
are falsy, every other string is truthy. -/
def jsTruthyS : Option String → Bool
  | none => false
  | some s => s ≠ ""

/-- Rendering of a nullable string inside a template literal:
`null` prints as `"null"`. -/
def jsShowOpt : Option String → String
  | none => "null"
  | some s => s

/-- JS whitespace (the ASCII part, which is all the scraper ever meets):
matched by `\s` and skipped by `parseInt` and `trim`. -/
def isJsSpace (c : Char) : Bool :=
  c == ' ' || c == '\t' || c == '\n' || c == '\r' || c == '\x0b' || c == '\x0c'

/-- Numeric value of a digit run (radix 10). -/
def digitsVal (ds : List Char) : Nat :=
  ds.foldl (fun acc c => 10 * acc + (c.toNat - 48)) 0

/-- Embedding of `parseInt(s, 10)`: skip leading whitespace, take an
optional sign, then the longest leading digit run; `NaN` (here `none`)
when no digit is found. -/
def parseIntJS (s : String) : Option Int :=
  let cs := s.toList.dropWhile isJsSpace
  let signAndRest : Int × List Char :=
    match cs with
    | '+' :: r => (1, r)
    | '-' :: r => (-1, r)
    | r => (1, r)
  let ds := signAndRest.2.takeWhile Char.isDigit
  if ds.isEmpty then none else some (signAndRest.1 * (digitsVal ds : Int))

/-! ## Jurisdiction resolver (`mapStateFromPostcode`, scraper.js lines 55-67) -/

/-- The numeric range table of `mapStateFromPostcode`, evaluated
first-match-wins exactly as the source's `if` chain (lines 58-66). -/
def stateFromNum (n : Int) : Option String :=
  if (200 ≤ n ∧ n ≤ 299) ∨ (2600 ≤ n ∧ n ≤ 2618) ∨ (2900 ≤ n ∧ n ≤ 2999) then some "ACT"
  else if 800 ≤ n ∧ n ≤ 899 then some "NT"
  else if (1000 ≤ n ∧ n ≤ 2599) ∨ (2619 ≤ n ∧ n ≤ 2898) then some "NSW"
  else if 3000 ≤ n ∧ n ≤ 3999 then some "VIC"
  else if 4000 ≤ n ∧ n ≤ 4999 then some "QLD"
  else if 5000 ≤ n ∧ n ≤ 5799 then some "SA"
  else if 6000 ≤ n ∧ n ≤ 6799 then some "WA"
  else if 7000 ≤ n ∧ n ≤ 7799 then some "TAS"
  else none

/-- `mapStateFromPostcode(pc)`: `parseInt` the input, return `null` on
`NaN`, else look the number up in the range table. -/
def mapStateFromPostcode (pc : String) : Option String :=
  match parseIntJS pc with
  | none => none
  | some n => stateFromNum n

/-- The canonical range table as data: every `(lo, hi, state)` interval
tested by `mapStateFromPostcode`, in source order. -/
def stateRanges : List (Int × Int × String) :=
  [(200, 299, "ACT"), (2600, 2618, "ACT"), (2900, 2999, "ACT"),
   (800, 899, "NT"),
   (1000, 2599, "NSW"), (2619, 2898, "NSW"),
   (3000, 3999, "VIC"),
   (4000, 4999, "QLD"),
   (5000, 5799, "SA"),
   (6000, 6799, "WA"),
   (7000, 7799, "TAS")]

/-! ## Obligation records and deduplication (`dedupeBy`, scraper.js lines 191-201) -/

/-- An obligation record as pushed by `parseAblisResults` (lines 161-168):
`level`, `regulator` and `obligation` are nullable, `source_url` is always
a string (`link || SOURCES.ABLIS_HOME`), `activity` and `postcode` echo
the query. -/
structure ObligationRecord where
  level : Option String
  regulator : Option String
  obligation : Option String
  source_url : String
  activity : String
  postcode : String
deriving DecidableEq, Repr

/-- `dedupeBy(arr, keyFn)` with its `seen` set made explicit: keep an
element iff its key has not been seen before. -/
def dedupeByAux {α κ : Type} [DecidableEq κ] (key : α → κ) (seen : List κ) :
    List α → List α
  | [] => []
  | a :: as =>
    if key a ∈ seen then dedupeByAux key seen as
    else a :: dedupeByAux key (key a :: seen) as

/-- `dedupeBy(arr, keyFn)` (scraper.js lines 191-201): first-seen-wins
deduplication by key. -/
def dedupeBy {α κ : Type} [DecidableEq κ] (arr : List α) (key : α → κ) : List α :=
  dedupeByAux key [] arr

/-- The dedup key used throughout the scraper (lines 171, 235, 306):
the template literal `obligation|regulator|source_url`, with JS
rendering `null` fields as the string `"null"`. -/
def recordKey (r : ObligationRecord) : String :=
  jsShowOpt r.obligation ++ "|" ++ jsShowOpt r.regulator ++ "|" ++ r.source_url

/-! ## Grouping (`groupByLevel`, scraper.js lines 240-250) and LGA inference -/

/-- `sub.isPrefixOf s` up to nothing: JS `s.includes(sub)` on char lists —
true iff `sub` occurs contiguously in `s` (the empty string occurs
everywhere). -/
def inclList (sub : List Char) : List Char → Bool
  | [] => sub.isEmpty
  | c :: cs => sub.isPrefixOf (c :: cs) || inclList sub cs

/-- JS `s.includes(sub)` on strings. -/
def jsIncludes (s sub : String) : Bool :=
  inclList sub.toList s.toList

/-- JS `s.toLowerCase()` (ASCII, which is all the source compares). -/
def jsToLower (s : String) : String :=
  String.mk (s.toList.map Char.toLower)

/-- The destination bucket of one record, following the `if` chain of
`groupByLevel` (lines 243-247) on `(it.level || "").toLowerCase()`. -/
inductive LevelBucket
  | localB | stateB | federalB | unknownB
deriving DecidableEq, Repr

/-- The classification decision of `groupByLevel`'s loop body for one
record: case-insensitive substring tests on the (possibly null) `level`
field, in source order. -/
def classify (it : ObligationRecord) : LevelBucket :=
  let lvl := jsToLower (it.level.getD "")
  if jsIncludes lvl "local" then .localB
  else if jsIncludes lvl "state" then .stateB
  else if jsIncludes lvl "federal" || jsIncludes lvl "commonwealth" then .federalB
  else .unknownB

/-- The four buckets returned by `groupByLevel` (`local` is a Lean
keyword, hence the underscore). -/
structure Levels where
  local_ : List ObligationRecord
  state : List ObligationRecord
  federal : List ObligationRecord
  unknown : List ObligationRecord
deriving DecidableEq, Repr

/-- `groupByLevel(items)` (lines 240-250): push every record into the
bucket chosen by the `if` chain (`classify`), preserving order. -/
def groupByLevel (items : List ObligationRecord) : Levels :=
  items.foldl
    (fun acc it =>
      match classify it with
      | .localB => { acc with local_ := acc.local_ ++ [it] }
      | .stateB => { acc with state := acc.state ++ [it] }
      | .federalB => { acc with federal := acc.federal ++ [it] }
      | .unknownB => { acc with unknown := acc.unknown ++ [it] })
    ⟨[], [], [], []⟩

/-- `tryInferLGA(items)` (lines 253-261): first regulator whose lowered
text contains "council", "city of" or "shire"; `null` otherwise. -/
def tryInferLGA (items : List ObligationRecord) : Option String :=
  items.findSome? fun it =>
    let reg := jsToLower (it.regulator.getD "")
    if jsIncludes reg "council" || jsIncludes reg "city of" || jsIncludes reg "shire" then
      it.regulator
    else none

/-! ## Markup scanners (`parseAblisResults` and helpers, scraper.js lines 129-189)

Each regular expression of the source is embedded as a deterministic
scanner.  All the patterns used have deterministic matches: a greedy
`[^X]*` (or `[^X]+`) immediately followed by the character `X` consumes
exactly the characters up to the next `X`, and a lazy `([\s\S]*?)` followed
by a terminator captures up to the terminator's first occurrence.  `exec`'s
leftmost-position, first-alternative match order is realised by `scanFirst`. -/

/-- Case-insensitive literal prefix test (all source regexes carry the
`i` flag). -/
def ciPre : List Char → List Char → Bool
  | [], _ => true
  | _ :: _, [] => false
  | l :: ls, c :: cs => (l.toLower == c.toLower) && ciPre ls cs

/-- Leftmost match: try the position matcher `m` at every position of the
input (including the final empty suffix), first success wins — the search
order of `RegExp.exec`. -/
def scanFirst {α : Type} (m : List Char → Option α) : List Char → Option α
  | [] => m []
  | c :: cs =>
    match m (c :: cs) with
    | some r => some r
    | none => scanFirst m cs

/-- `[^stop]*stop`: consume up to and including the next `stop` character,
returning the remainder; fails when `stop` never occurs. -/
def skipToChar (stop : Char) : List Char → Option (List Char)
  | [] => none
  | c :: cs => if c == stop then some cs else skipToChar stop cs

/-- `([\s\S]*?)` followed by a terminator recognised by `term`: capture
lazily (shortest first) up to the first position where `term` succeeds;
`term` returns the remainder after the terminator. -/
def captureUntil (term : List Char → Option (List Char)) :
    List Char → Option (List Char × List Char)
  | [] => none
  | c :: cs =>
    match term (c :: cs) with
    | some after => some ([], after)
    | none => (captureUntil term cs).map fun p => (c :: p.1, p.2)

/-- Terminator for a case-insensitive literal (given as head and tail so a
successful match always consumes at least one character). -/
def litTerm (l0 : Char) (ls : List Char) (s : List Char) : Option (List Char) :=
  match s with
  | [] => none
  | c :: cs => if ciPre (l0 :: ls) (c :: cs) then some (cs.drop ls.length) else none

/-- Terminator `</[^>]+>` (the generic close tag ending the agency/level
captures). -/
def closeTagTerm (s : List Char) : Option (List Char) :=
  match s with
  | '<' :: '/' :: rest =>
    let inside := rest.takeWhile (· != '>')
    if inside.isEmpty then none
    else
      match rest.drop inside.length with
      | '>' :: after => some after
      | _ => none
  | _ => none

/-- A whole tag `<[^>]+>` at the head of the input (used by `clean`'s
tag-stripping replace); returns the remainder after the tag. -/
def tagTerm (s : List Char) : Option (List Char) :=
  match s with
  | '<' :: rest =>
    let inside := rest.takeWhile (· != '>')
    if inside.isEmpty then none
    else
      match rest.drop inside.length with
      | '>' :: after => some after
      | _ => none
  | _ => none

/-- Occurrence of a case-insensitive literal before the next `'>'`
(embeds `[^>]*lit` inside a tag); returns the remainder after the
literal. -/
def findBeforeGt (l0 : Char) (ls : List Char) : List Char → Option (List Char)
  | [] => none
  | c :: cs =>
    if ciPre (l0 :: ls) (c :: cs) then some (cs.drop ls.length)
    else if c == '>' then none
    else findBeforeGt l0 ls cs

/-- `<tag[^>]*>([\s\S]*?)</tag>` at the head of the input: the heading
alternatives of the title regex (line 137), `tag` being `h3` or `h2`. -/
def matchHeading (tag : List Char) (s : List Char) : Option (List Char) :=
  if ciPre ('<' :: tag) s then
    match skipToChar '>' (s.drop (tag.length + 1)) with
    | none => none
    | some rest =>
      match tag with
      | [] => none
      | t0 :: ts =>
        (captureUntil (litTerm '<' ('/' :: t0 :: ts ++ ['>'])) rest).map Prod.fst
  else none

/-- `<a[^>]*class="[^"]*title[^"]*"[^>]*>([\s\S]*?)</a>` at the head of
the input: the third alternative of the title regex (line 137). -/
def matchTitleAnchor (s : List Char) : Option (List Char) :=
  if ciPre ['<', 'a'] s then
    match findBeforeGt 'c' "lass=\"".toList (s.drop 2) with
    | none => none
    | some rest =>
      let inQuotes := rest.takeWhile (· != '"')
      if inclList "title".toList (inQuotes.map Char.toLower) then
        match rest.drop inQuotes.length with
        | '"' :: rest2 =>
          match skipToChar '>' rest2 with
          | none => none
          | some rest3 =>
            (captureUntil (litTerm '<' "/a>".toList) rest3).map Prod.fst
        | _ => none
      else none
  else none

/-- The title regex of line 137, tried at one position: `<h3…>`, `<h2…>`
then the title-classed anchor, in alternative order. -/
def titleAt (s : List Char) : Option (List Char) :=
  match matchHeading "h3".toList s with
  | some r => some r
  | none =>
    match matchHeading "h2".toList s with
    | some r => some r
    | none => matchTitleAnchor s

/-- `class="(?:n1|…|nk)"` at the head of the input: the class-name
alternation shared by the agency and level regexes (lines 138-139);
returns the remainder after the closing quote. -/
def classNameAlt (names : List (List Char)) (s : List Char) : Option (List Char) :=
  if ciPre "class=\"".toList s then
    let rest := s.drop 7
    match names.find? (fun n => ciPre (n ++ ['"']) rest) with
    | some n => some (rest.drop (n.length + 1))
    | none => none
  else none

/-- `class="(?:…)"[^>]*>([\s\S]*?)</[^>]+>` at one position: the shape of
the agency regex (line 138) and the level regex (line 139). -/
def classedTextAt (names : List (List Char)) (s : List Char) : Option (List Char) :=
  match classNameAlt names s with
  | none => none
  | some rest =>
    match skipToChar '>' rest with
    | none => none
    | some rest2 => (captureUntil closeTagTerm rest2).map Prod.fst

/-- `<a[^>]+href="([^"]+)"` at one position (the link regex, line 181). -/
def linkAt (s : List Char) : Option (List Char) :=
  if ciPre ['<', 'a'] s then
    match s.drop 2 with
    | [] => none
    | c :: cs =>
      -- `[^>]+` : at least one non-'>' character before `href="`
      if c == '>' then none
      else
        match findBeforeGt 'h' "ref=\"".toList cs with
        | none => none
        | some rest =>
          let href := rest.takeWhile (· != '"')
          if href.isEmpty then none
          else
            match rest.drop href.length with
            | '"' :: _ => some href
            | _ => none
  else none

/-- `linkHref(s)` (lines 180-186): first link match, with site-relative
`href` values resolved against the ABLIS origin. -/
def linkHref (s : List Char) : Option (List Char) :=
  match scanFirst linkAt s with
  | none => none
  | some href =>
    some (if href.head? = some '/' then "https://ablis.business.gov.au".toList ++ href else href)

/-- `textBetween(s, re)` (lines 174-179) specialised to one of the three
field regexes: leftmost match, with an empty capture filtered out by
`groups.filter(Boolean)` (an empty string is falsy). -/
def textBetweenBy (m : List Char → Option (List Char)) (s : List Char) :
    Option (List Char) :=
  match scanFirst m s with
  | none => none
  | some t => if t.isEmpty then none else some t

/-- The four card-splitting markers of line 135, in alternative order
(each given as head and tail so a match consumes at least one character). -/
def cardMarkers : List (Char × List Char) :=
  [('<', "article".toList),
   ('<', "li class=\"search-result".toList),
   ('<', "div class=\"result-card".toList),
   ('<', "div class=\"result\"".toList)]

/-- `html.split(re)` for an alternation of literals: cut the input at
every leftmost non-overlapping case-insensitive occurrence of one of the
markers (first alternative wins at a given position).  `skip` counts
characters of an already-recognised marker still to be consumed, keeping
the recursion structural. -/
def splitMarkers (lits : List (Char × List Char)) (skip : Nat) (cur : List Char) :
    List Char → List (List Char)
  | [] => [cur.reverse]
  | c :: cs =>
    match skip with
    | n + 1 => splitMarkers lits n cur cs
    | 0 =>
      match lits.find? (fun l => ciPre (l.1 :: l.2) (c :: cs)) with
      | some l => cur.reverse :: splitMarkers lits l.2.length [] cs
      | none => splitMarkers lits 0 (c :: cur) cs

/-- `s.replace(/<[^>]+>/g, " ")` (first step of `clean`, line 189): every
leftmost non-overlapping `<[^>]+>` becomes one space. -/
def jsReplaceTags (skip : Nat) : List Char → List Char
  | [] => []
  | c :: cs =>
    match skip with
    | n + 1 => jsReplaceTags n cs
    | 0 =>
      if c = '<' then
        -- `<[^>]+>` at this position: a nonempty `'>'`-free run then `'>'`
        let inside := cs.takeWhile (· != '>')
        if inside.isEmpty || !((cs.drop inside.length).head? == some '>') then
          c :: jsReplaceTags 0 cs
        else
          -- replace the whole tag by one space and consume it
          ' ' :: jsReplaceTags (inside.length + 1) cs
      else c :: jsReplaceTags 0 cs

/-- `s.replace(/\s+/g, " ")` (second step of `clean`): every whitespace
run becomes one space (`inRun` marks that the previous character belonged
to a run already replaced). -/
def collapseWs (inRun : Bool) : List Char → List Char
  | [] => []
  | c :: cs =>
    if isJsSpace c then
      (if inRun then [] else [' ']) ++ collapseWs true cs
    else c :: collapseWs false cs

/-- `s.trim()` (last step of `clean`). -/
def jsTrim (s : List Char) : List Char :=
  ((s.dropWhile isJsSpace).reverse.dropWhile isJsSpace).reverse

/-- `clean(s)` (lines 187-190): `null` (and the falsy `""`) stay `null`;
otherwise strip tags, collapse whitespace, trim. -/
def clean : Option (List Char) → Option (List Char)
  | none => none
  | some s => if s.isEmpty then none else some (jsTrim (collapseWs false (jsReplaceTags 0 s)))

/-- `x || null` for a cleaned field at the `items.push` site (lines
161-168): an empty string collapses to `null`. -/
def jsOrNoneL : Option (List Char) → Option String
  | none => none
  | some s => if s.isEmpty then none else some (String.mk s)

/-- `x || d` for a nullable string with a (truthy) string default —
the `link || SOURCES.ABLIS_HOME` pattern of line 165. -/
def jsOrStr (x : Option String) (d : String) : String :=
  match x with
  | none => d
  | some s => if s = "" then d else s

/-- JS falsiness of a null-or-string value (`!x`). -/
def jsFalsyC : Option (List Char) → Bool
  | none => true
  | some s => s.isEmpty

/-- Class-name alternatives of the agency regex (line 138). -/
def agencyNames : List (List Char) :=
  ["agency", "provider", "organisation", "regulator", "agency-name"].map String.toList

/-- Class-name alternatives of the level regex (line 139). -/
def levelNames : List (List Char) :=
  ["jurisdiction", "level", "gov-level"].map String.toList

/-- The body of `parseAblisResults`' per-card loop (lines 136-169): field
extraction, the noise guard, level inference, and the record push
(`none` embeds `continue`). -/
def cardItem (activity postcode : String) (raw : List Char) : Option ObligationRecord :=
  let title := textBetweenBy titleAt raw
  let agency := textBetweenBy (classedTextAt agencyNames) raw
  let level := textBetweenBy (classedTextAt levelNames) raw
  let link := linkHref raw
  if title.isNone && agency.isNone && link.isNone then none
  else
    let cleanTitle := clean title
    let cleanAgency := clean agency
    let cleanLevel0 := clean level
    -- infer level if missing (lines 149-154)
    let cleanLevel1 :=
      if jsFalsyC cleanLevel0 && !jsFalsyC cleanAgency then
        let low := (cleanAgency.getD []).map Char.toLower
        if inclList "council".toList low || inclList "shire".toList low ||
            inclList "city of".toList low then
          some "local".toList
        else cleanLevel0
      else cleanLevel0
    -- infer from the title (lines 155-159)
    let cleanLevel2 :=
      if jsFalsyC cleanLevel1 && !jsFalsyC cleanTitle then
        let low := (cleanTitle.getD []).map Char.toLower
        if inclList "state".toList low then some "state".toList
        else if inclList "commonwealth".toList low || inclList "federal".toList low then
          some "federal".toList
        else cleanLevel1
      else cleanLevel1
    some
      { level := jsOrNoneL cleanLevel2
        regulator := jsOrNoneL cleanAgency
        obligation := jsOrNoneL cleanTitle
        source_url := jsOrStr (link.map String.mk) "https://ablis.business.gov.au/"
        activity := activity
        postcode := postcode }

/-- `parseAblisResults(html, activity, postcode)` (lines 129-172): split
into card chunks, run the per-card extraction, dedupe by the record key. -/
def parseAblisResults (html : String) (activity postcode : String) :
    List ObligationRecord :=
  let chunks := splitMarkers cardMarkers 0 [] html.toList
  let items := chunks.filterMap (cardItem activity postcode)
  dedupeBy items recordKey

/-! ## Sources object, session scope, supplemental planner, orchestrator
(scraper.js lines 46-51, 71-84, 207-236, 265-351) -/

/-- The `SOURCES` object literal (lines 46-51) as a property list: it has
exactly these three properties. -/
def SOURCES : List (String × String) :=
  [("ABLIS_ACTIVITY", "https://ablis.business.gov.au/search/activity"),
   ("ABLIS_HOME", "https://ablis.business.gov.au/"),
   ("ABS_ASGS_LGA", "https://www.abs.gov.au/statistics/standards/australian-statistical-geography-standard-asgs-edition-3/jul2021-jun2026/non-abs-structures/local-government-areas#lga-name-criteria")]

/-- JS property access `SOURCES.k`: `undefined` for an absent key. -/
def sourcesGet (k : String) : Option String :=
  (SOURCES.find? fun p => p.1 == k).map Prod.snd

/-- Array-literal spread `[...x]`: spreading `undefined` throws a
`TypeError`; spreading a string yields its characters. -/
def spreadJs : Option String → Except String (List String)
  | none => .error "TypeError: spread of undefined is not iterable"
  | some s => .ok (s.toList.map fun c => String.mk [c])

/-- `withDriver(fn)` (lines 71-84): scoped session use.  The outcome of
`new Builder()…build()` is the `build` parameter; the returned flag
records whether the `finally` clause ran `driver.quit()` on an acquired
driver. -/
def withDriver {D A : Type} (build : Except String D) (fn : D → Except String A) :
    Except String A × Bool :=
  match build with
  | .error e => (.error e, false)
  | .ok d =>
    match fn d with
    | .ok a => (.ok a, true)
    | .error e => (.error e, true)

/-- The nested alcohol flag set of the request (header lines 23-28). -/
structure AlcoholFlags where
  serveOnPremise : Bool := false
  takeaway : Bool := false
  brewOrDistil : Bool := false
deriving DecidableEq, Repr

/-- The nested medicines flag set, `schedules` included (header line 26). -/
structure MedicinesFlags where
  dispense : Bool := false
  wholesale : Bool := false
  storeOnly : Bool := false
  schedules : Option (List String) := none
deriving DecidableEq, Repr

/-- The nested chemicals flag set (header line 27). -/
structure ChemicalFlags where
  manufacture : Bool := false
  importOrExport : Bool := false
  transport : Bool := false
  store : Bool := false
deriving DecidableEq, Repr

/-- The `flags` argument of `supplementalQueries` (line 207). -/
structure SuppFlags where
  alcohol : Option AlcoholFlags
  medicines : Option MedicinesFlags
  chemicals : Option ChemicalFlags
deriving DecidableEq, Repr

/-- The `wants` list built by `supplementalQueries` (lines 208-226):
alcohol, medicines (with the schedules extra), then chemicals pushes, in
source order. -/
def supplementalWants (flags : SuppFlags) : List String :=
  (match flags.alcohol with
   | some a =>
     if a.serveOnPremise || a.takeaway || a.brewOrDistil then
       ["liquor licence", "responsible service of alcohol"]
     else []
   | none => []) ++
  (match flags.medicines with
   | some m =>
     if m.dispense || m.wholesale || m.storeOnly then
       ["scheduled medicines", "pharmacy"] ++
       (match m.schedules with
        | some l => if l.length ≠ 0 then ["poisons permit"] else []
        | none => [])
     else []
   | none => []) ++
  (match flags.chemicals with
   | some c =>
     if c.manufacture || c.importOrExport || c.transport || c.store then
       ["hazardous chemicals", "dangerous goods"]
     else []
   | none => [])

/-- `searchAblis(driver, q, postcode).catch(() => [])`: a failed query
contributes no records. -/
def jsCatch {α : Type} : Except String (List α) → List α
  | .ok l => l
  | .error _ => []

/-- `supplementalQueries(driver, postcode, flags)` (lines 207-236): run
one ABLIS query per deduplicated want, each with independent failure
tolerance, stamp the phrase as `activity`, dedupe the merged extras.
`search q postcode` is the outcome of `searchAblis` for that query. -/
def supplementalQueries
    (search : String → String → Except String (List ObligationRecord))
    (postcode : String) (flags : SuppFlags) : List ObligationRecord :=
  let qs := dedupeBy (supplementalWants flags) id
  let extra := qs.flatMap fun q =>
    (jsCatch (search q postcode)).map fun r => { r with activity := q }
  dedupeBy extra recordKey

/-- The request's `controlledSubstances` object.  The final `schedules`
field models the *top-level* `controlledSubstances.schedules` property
read by `scrapeAll` (line 299); the documented request shape (header
lines 23-28) nests `schedules` inside `medicines` and has no such
top-level property. -/
structure ControlledSubstances where
  usesControlled : Bool := false
  alcohol : Option AlcoholFlags := none
  medicines : Option MedicinesFlags := none
  chemicals : Option ChemicalFlags := none
  schedules : Option (List String) := none
deriving DecidableEq, Repr

/-- The request payload destructured by `scrapeAll` (lines 266-272);
every field may be absent. -/
structure ScrapeInput where
  postcode : Option String := none
  activityDescription : Option String := none
  anzsicCode : Option String := none
  businessStructure : Option String := none
  controlledSubstances : Option ControlledSubstances := none
deriving Repr

/-- `{...controlledSubstances.medicines, schedules: controlledSubstances.schedules || []}`
(lines 297-300): spread of a possibly-undefined object, with `schedules`
always overwritten by the top-level property (`undefined` becomes `[]`;
an array is truthy even when empty). -/
def spreadMedicines (m : Option MedicinesFlags) (topSchedules : Option (List String)) :
    MedicinesFlags :=
  { dispense := (m.map (·.dispense)).getD false
    wholesale := (m.map (·.wholesale)).getD false
    storeOnly := (m.map (·.storeOnly)).getD false
    schedules := some (topSchedules.getD []) }

/-- The `flags` object `scrapeAll` passes to `supplementalQueries`
(lines 295-302). -/
def mkSuppFlags (cs : ControlledSubstances) : SuppFlags :=
  { alcohol := cs.alcohol
    medicines := some (spreadMedicines cs.medicines cs.schedules)
    chemicals := cs.chemicals }

/-- The supplemental phrases the pipeline plans (and executes, one query
each) for a request's `controlledSubstances` object: the guard of line
294 followed by the planning part of `supplementalQueries`. -/
def plannedSupplementalPhrases (cs : ControlledSubstances) : List String :=
  if cs.usesControlled then dedupeBy (supplementalWants (mkSuppFlags cs)) id else []

/-- The response envelope assembled at lines 336-349 (the constant
`prompt_for_ai` scaffolding and the input echo, pure restatements of the
request, are not modelled). -/
structure Envelope where
  ok : Bool
  state : Option String
  inferredLGA : Option String
  datasets_links : List String
  results : Levels
  confidence : String
deriving Repr

/-- `scrapeAll(input)` (lines 265-351).  `build` is the outcome of the
driver build inside `withDriver`; `search q pc` is the outcome of
`searchAblis` for one query (each call site wraps it in `.catch`). -/
def scrapeAll (build : Except String Unit)
    (search : String → String → Except String (List ObligationRecord))
    (input : Option ScrapeInput) : Except String Envelope :=
  let inp := input.getD {}
  if !(jsTruthyS inp.postcode && jsTruthyS inp.activityDescription) then
    .error "postcode and activityDescription are required"
  else
    let postcode := inp.postcode.getD ""
    let activityDescription := inp.activityDescription.getD ""
    let state := mapStateFromPostcode postcode
    (withDriver build fun _ =>
      -- base ABLIS query, with local failure recovery (line 283)
      let base := jsCatch (search activityDescription postcode)
      -- optional ANZSIC-refined query (lines 287-291)
      let anzsicItems :=
        if jsTruthyS inp.anzsicCode then
          jsCatch (search (activityDescription ++ " " ++ inp.anzsicCode.getD "") postcode)
        else []
      -- supplemental queries for controlled categories (lines 294-304)
      let suppItems :=
        match inp.controlledSubstances with
        | some cs =>
          if cs.usesControlled then supplementalQueries search postcode (mkSuppFlags cs)
          else []
        | none => []
      let allItems := base ++ anzsicItems ++ suppItems
      let deduped := dedupeBy allItems recordKey
      let groups := groupByLevel deduped
      let inferredLGA := tryInferLGA deduped
      -- `[SOURCES.ABLIS_ACTIVITY, SOURCES.ABS_ASGS_LGA, ...SOURCES.GOVHACK_LINKS]`
      -- (line 316): the spread of the absent property throws
      match spreadJs (sourcesGet "GOVHACK_LINKS") with
      | .error e => .error e
      | .ok gov =>
        .ok { ok := true
              state := state
              inferredLGA := inferredLGA
              datasets_links :=
                [(sourcesGet "ABLIS_ACTIVITY").getD "", (sourcesGet "ABS_ASGS_LGA").getD ""] ++ gov
              results := groups
              confidence :=
                if state.isSome then
                  "Location resolved by postcode to state. LGA inferred from regulator text if present."
                else "State could not be confidently resolved from postcode." }).1

/-! ## Specification views and fixtures -/

/-- The records `groupByLevel` routes to bucket `b`, as an order-preserving
filter (specification view of the push loop). -/
def bucketOf (b : LevelBucket) (items : List ObligationRecord) : List ObligationRecord :=
  items.filter fun it => classify it == b

/-- Lowercase letters and the space character: the "plain text" alphabet of
the generalized extractor scenario. -/
def plainChars : List Char := "abcdefghijklmnopqrstuvwxyz ".toList

/-- The §8 scenario fragment with symbolic title and regulator text. -/
def mkFragment (title reg : List Char) : List Char :=
  "<article><h3>".toList ++ title ++ "</h3><span class=\"regulator\">".toList ++
    reg ++ "</span><a href=\"/x\">Details</a>".toList

/-- The single card chunk the splitter produces from the scenario
fragment. -/
def chunkC8 (title reg : List Char) : List Char :=
  '>' :: '<' :: 'h' :: '3' :: '>' ::
    (title ++ ("</h3><span class=\"regulator\">".toList ++
      (reg ++ "</span><a href=\"/x\">Details</a>".toList)))

/-! # Theorems -/

/-! ## Deduplication lemmas (shared) -/

theorem dedupeByAux_sublist {α κ : Type} [DecidableEq κ] (key : α → κ)
    (seen : List κ) (l : List α) : (dedupeByAux key seen l).Sublist l := by
  induction l generalizing seen with
  | nil => simp [dedupeByAux]
  | cons a as ih =>
    simp only [dedupeByAux]
    split
    · exact (ih seen).cons a
    · exact (ih _).cons₂ a

theorem mem_dedupeByAux_notin_seen {α κ : Type} [DecidableEq κ] (key : α → κ)
    {seen : List κ} {l : List α} {a : α}
    (h : a ∈ dedupeByAux key seen l) : key a ∉ seen := by
  induction l generalizing seen with
  | nil => simp [dedupeByAux] at h
  | cons b bs ih =>
    by_cases hk : key b ∈ seen
    · rw [dedupeByAux, if_pos hk] at h
      exact ih h
    · rw [dedupeByAux, if_neg hk] at h
      rcases List.mem_cons.mp h with rfl | h2
      · exact hk
      · intro hs
        exact (ih h2) (List.mem_cons_of_mem _ hs)

theorem dedupeByAux_first_occurrence {α κ : Type} [DecidableEq κ] (key : α → κ)
    {seen : List κ} {l : List α} {a : α}
    (h : a ∈ dedupeByAux key seen l) :
    l.find? (fun b => decide (key b = key a)) = some a := by
  induction l generalizing seen with
  | nil => simp [dedupeByAux] at h
  | cons b bs ih =>
    by_cases hk : key b ∈ seen
    · rw [dedupeByAux, if_pos hk] at h
      have hnotin : key a ∉ seen := mem_dedupeByAux_notin_seen key h
      have hne : ¬key b = key a := fun he => hnotin (he ▸ hk)
      rw [List.find?_cons_of_neg _ (by simpa using hne)]
      exact ih h
    · rw [dedupeByAux, if_neg hk] at h
      rcases List.mem_cons.mp h with rfl | h2
      · exact List.find?_cons_of_pos _ (by simp)
      · have hkey : key a ∉ key b :: seen := mem_dedupeByAux_notin_seen key h2
        have hne : ¬key b = key a := by
          intro he
          exact hkey (by rw [← he]; exact List.mem_cons_self _ _)
        rw [List.find?_cons_of_neg _ (by simpa using hne)]
        exact ih h2

theorem dedupeByAux_keys_nodup {α κ : Type} [DecidableEq κ] (key : α → κ)
    (seen : List κ) (l : List α) : ((dedupeByAux key seen l).map key).Nodup := by
  induction l generalizing seen with
  | nil => simp [dedupeByAux]
  | cons b bs ih =>
    by_cases hk : key b ∈ seen
    · rw [dedupeByAux, if_pos hk]
      exact ih seen
    · rw [dedupeByAux, if_neg hk]
      simp only [List.map_cons, List.nodup_cons]
      refine ⟨fun hmem => ?_, ih _⟩
      obtain ⟨a, ha, hkey⟩ := List.mem_map.mp hmem
      exact (mem_dedupeByAux_notin_seen key ha) (hkey ▸ List.mem_cons_self _ _)

theorem dedupeByAux_keys_complete {α κ : Type} [DecidableEq κ] (key : α → κ)
    {seen : List κ} {l : List α} {a : α} (ha : a ∈ l) (hs : key a ∉ seen) :
    key a ∈ (dedupeByAux key seen l).map key := by
  induction l generalizing seen with
  | nil => cases ha
  | cons b bs ih =>
    by_cases hk : key b ∈ seen
    · rw [dedupeByAux, if_pos hk]
      rcases List.mem_cons.mp ha with rfl | h2
      · exact absurd hk hs
      · exact ih h2 hs
    · rw [dedupeByAux, if_neg hk]
      simp only [List.map_cons]
      by_cases he : key a = key b
      · exact he ▸ List.mem_cons_self _ _
      · rcases List.mem_cons.mp ha with rfl | h2
        · exact absurd rfl he
        · refine List.mem_cons_of_mem _ (ih h2 ?_)
          simp only [List.mem_cons, not_or]
          exact ⟨he, hs⟩

theorem dedupeByAux_idem {α κ : Type} [DecidableEq κ] (key : α → κ)
    (seen : List κ) (l : List α) :
    dedupeByAux key seen (dedupeByAux key seen l) = dedupeByAux key seen l := by
  induction l generalizing seen with
  | nil => simp [dedupeByAux]
  | cons b bs ih =>
    by_cases hk : key b ∈ seen
    · rw [dedupeByAux, if_pos hk]
      exact ih seen
    · rw [dedupeByAux, if_neg hk]
      rw [dedupeByAux, if_neg hk]
      rw [ih]

/-- C5: `dedupe` is idempotent, and its output is the subsequence of the
input made of the first occurrence of each key, in input order:
a sublist of the input with pairwise-distinct keys covering every input
key, in which every element is the first input element bearing its key. -/
theorem claim5_dedupe_idempotent_first_seen {α κ : Type} [DecidableEq κ]
    (key : α → κ) (x : List α) :
    dedupeBy (dedupeBy x key) key = dedupeBy x key ∧
    (dedupeBy x key).Sublist x ∧
    ((dedupeBy x key).map key).Nodup ∧
    (∀ a ∈ x, key a ∈ (dedupeBy x key).map key) ∧
    (∀ a ∈ dedupeBy x key, x.find? (fun b => decide (key b = key a)) = some a) := by
  refine ⟨dedupeByAux_idem key [] x, dedupeByAux_sublist key [] x,
    dedupeByAux_keys_nodup key [] x, fun a ha => ?_, fun a ha => ?_⟩
  · exact dedupeByAux_keys_complete key ha (by simp)
  · exact dedupeByAux_first_occurrence key ha

/-- C5 witness: the characterisation applied to a concrete list. -/
theorem claim5_witness :
    ([1, 1, 2] : List Nat).find? (fun b => decide (id b = id 1)) = some 1 :=
  (claim5_dedupe_idempotent_first_seen id [1, 1, 2]).2.2.2.2 1 (by decide)

/-! ## C3: dedupe identity is the serialized key, not the raw triple -/

/-- C3 counterexample: two records whose `(obligation, regulator, sourceUrl)`
triples differ — a `null` obligation versus the literal string `"null"` —
are nonetheless collapsed to the first one, because the dedup key
serializes `null` as `"null"`. -/
theorem claim3_counterexample :
    dedupeBy
      [({ level := none, regulator := some "x", obligation := none,
          source_url := "u", activity := "a", postcode := "p" } : ObligationRecord),
       { level := none, regulator := some "x", obligation := some "null",
         source_url := "u", activity := "b", postcode := "p" }] recordKey =
      [{ level := none, regulator := some "x", obligation := none,
         source_url := "u", activity := "a", postcode := "p" }] ∧
    (none : Option String) ≠ some "null" := by
  exact ⟨by decide, by simp⟩

/-- C3 amended: a pair of records is collapsed to the first-seen one iff
their serialized keys `obligation|regulator|sourceUrl` (with `null`
rendered as the string `"null"`) coincide, and kept as a pair otherwise;
identical raw triples always give identical keys (the converse can fail,
e.g. for `null` versus `"null"`). -/
theorem claim3_dedupe_key_semantics (r s : ObligationRecord) :
    (dedupeBy [r, s] recordKey = if recordKey s = recordKey r then [r] else [r, s]) ∧
    ((r.obligation = s.obligation ∧ r.regulator = s.regulator ∧
        r.source_url = s.source_url) → recordKey r = recordKey s) := by
  constructor
  · by_cases h : recordKey s = recordKey r <;>
      simp [dedupeBy, dedupeByAux, h]
  · rintro ⟨h1, h2, h3⟩
    simp [recordKey, h1, h2, h3]

/-- C3 witness: records equal on the triple but differing in `activity`
get the same key. -/
theorem claim3_witness :
    recordKey { level := none, regulator := some "r", obligation := some "o",
                source_url := "u", activity := "a", postcode := "p" } =
    recordKey { level := none, regulator := some "r", obligation := some "o",
                source_url := "u", activity := "b", postcode := "p" } :=
  (claim3_dedupe_key_semantics _ _).2 ⟨rfl, rfl, rfl⟩

/-! ## C4: jurisdiction resolution from postcode -/

/-- C4: a postcode string whose parsed number lies in a range of the table
resolves to that range's state; input that does not parse as a number
(`parseInt` gives `NaN`) resolves to `null`; the table's ranges are
pairwise disjoint; and a parsed number outside every range — `"9999"`
among them — resolves to `null`. -/
theorem claim4_resolveState :
    (∀ (s : String) (n lo hi : Int) (st : String), (lo, hi, st) ∈ stateRanges →
        parseIntJS s = some n → lo ≤ n → n ≤ hi →
        mapStateFromPostcode s = some st) ∧
    (∀ s : String, parseIntJS s = none → mapStateFromPostcode s = none) ∧
    stateRanges.Pairwise (fun p q => p.2.1 < q.1 ∨ q.2.1 < p.1) ∧
    (∀ (s : String) (n : Int), parseIntJS s = some n →
        (∀ (lo hi : Int) (st : String), (lo, hi, st) ∈ stateRanges → n < lo ∨ hi < n) →
        mapStateFromPostcode s = none) ∧
    mapStateFromPostcode "9999" = none := by
  refine ⟨?_, ?_, ?_, ?_, ?_⟩
  · intro s n lo hi st hmem hp h1 h2
    rw [mapStateFromPostcode, hp]
    simp only [stateRanges, List.mem_cons, List.not_mem_nil, or_false,
      Prod.mk.injEq] at hmem
    rcases hmem with ⟨h, h', rfl⟩ | ⟨h, h', rfl⟩ | ⟨h, h', rfl⟩ | ⟨h, h', rfl⟩ |
        ⟨h, h', rfl⟩ | ⟨h, h', rfl⟩ | ⟨h, h', rfl⟩ | ⟨h, h', rfl⟩ | ⟨h, h', rfl⟩ |
        ⟨h, h', rfl⟩ | ⟨h, h', rfl⟩ <;>
      subst h <;> subst h' <;>
      (simp only [stateFromNum]; split_ifs <;> first | rfl | (exfalso; omega))
  · intro s hp
    rw [mapStateFromPostcode, hp]
  · decide
  · intro s n hp hout
    rw [mapStateFromPostcode, hp]
    have e1 := hout 200 299 "ACT" (by simp [stateRanges])
    have e2 := hout 2600 2618 "ACT" (by simp [stateRanges])
    have e3 := hout 2900 2999 "ACT" (by simp [stateRanges])
    have e4 := hout 800 899 "NT" (by simp [stateRanges])
    have e5 := hout 1000 2599 "NSW" (by simp [stateRanges])
    have e6 := hout 2619 2898 "NSW" (by simp [stateRanges])
    have e7 := hout 3000 3999 "VIC" (by simp [stateRanges])
    have e8 := hout 4000 4999 "QLD" (by simp [stateRanges])
    have e9 := hout 5000 5799 "SA" (by simp [stateRanges])
    have e10 := hout 6000 6799 "WA" (by simp [stateRanges])
    have e11 := hout 7000 7799 "TAS" (by simp [stateRanges])
    simp only [stateFromNum]
    split_ifs <;> first | rfl | (exfalso; omega)
  · rfl

/-- C4 witness: `"3066"` lies in the VIC range and resolves to `"VIC"`. -/
theorem claim4_witness : mapStateFromPostcode "3066" = some "VIC" :=
  claim4_resolveState.1 "3066" 3066 3000 3999 "VIC" (by simp [stateRanges])
    (by rfl) (by decide) (by decide)

/-! ## C9: scoped session release -/

/-- C9: once the driver is acquired, `withDriver` runs `driver.quit()` on
every exit path and propagates `fn`'s outcome: a returned value is
returned with the session closed, a thrown error is rethrown with the
session closed. -/
theorem claim9_withDriver_release {D A : Type} (build : Except String D) (d : D)
    (fn : D → Except String A) (h : build = .ok d) :
    (∀ a, fn d = .ok a → withDriver build fn = (.ok a, true)) ∧
    (∀ e, fn d = .error e → withDriver build fn = (.error e, true)) := by
  subst h
  constructor <;> intro x hx <;> simp [withDriver, hx]

/-- C9 witness: a throwing body still closes the session. -/
theorem claim9_witness :
    withDriver (Except.ok ()) (fun _ => (Except.error "boom" : Except String Nat)) =
      (Except.error "boom", true) :=
  (claim9_withDriver_release (Except.ok ()) ()
    (fun _ => (Except.error "boom" : Except String Nat)) rfl).2 "boom" rfl

/-! ## C7: supplemental phrases for serve-on-premise alcohol -/

/-- C7: with `usesControlled` and only `alcohol.serveOnPremise` set, the
pipeline plans exactly `["liquor licence", "responsible service of
alcohol"]`, in that order and without duplicates. -/
theorem claim7_alcohol_phrases :
    plannedSupplementalPhrases
        { usesControlled := true, alcohol := some { serveOnPremise := true } } =
      ["liquor licence", "responsible service of alcohol"] ∧
    (["liquor licence", "responsible service of alcohol"] : List String).Nodup :=
  ⟨rfl, by decide⟩

/-! ## C6: grouping is an exhaustive, disjoint partition -/

theorem groupByLevel_go {items : List ObligationRecord} {acc : Levels} :
    items.foldl
      (fun acc it =>
        match classify it with
        | .localB => { acc with local_ := acc.local_ ++ [it] }
        | .stateB => { acc with state := acc.state ++ [it] }
        | .federalB => { acc with federal := acc.federal ++ [it] }
        | .unknownB => { acc with unknown := acc.unknown ++ [it] }) acc =
      { local_ := acc.local_ ++ bucketOf .localB items
        state := acc.state ++ bucketOf .stateB items
        federal := acc.federal ++ bucketOf .federalB items
        unknown := acc.unknown ++ bucketOf .unknownB items } := by
  induction items generalizing acc with
  | nil => simp [bucketOf]
  | cons a as ih =>
    simp only [List.foldl_cons]
    rcases h : classify a <;>
      rw [ih] <;>
      simp [bucketOf, List.filter_cons, h]

theorem groupByLevel_eq_buckets (items : List ObligationRecord) :
    groupByLevel items =
      { local_ := bucketOf .localB items
        state := bucketOf .stateB items
        federal := bucketOf .federalB items
        unknown := bucketOf .unknownB items } := by
  unfold groupByLevel
  rw [groupByLevel_go]
  simp

theorem bucketOf_length_sum (items : List ObligationRecord) :
    (bucketOf .localB items).length + (bucketOf .stateB items).length +
      (bucketOf .federalB items).length + (bucketOf .unknownB items).length =
      items.length := by
  induction items with
  | nil => simp [bucketOf]
  | cons a as ih =>
    rcases h : classify a <;>
      simp [bucketOf, List.filter_cons, h] at ih ⊢ <;> omega

/-- C6: `groupByLevel` partitions its input exhaustively and disjointly —
the bucket sizes sum to the input size and a record is in a bucket iff it
is an input record which the case-insensitive substring chain on `level`
("local", then "state", then "federal"/"commonwealth", else unknown)
classifies there; a `level` of `"Local Council"` lands in `local` and a
null `level` in `unknown`. -/
theorem claim6_group_partition (items : List ObligationRecord) :
    ((groupByLevel items).local_.length + (groupByLevel items).state.length +
        (groupByLevel items).federal.length + (groupByLevel items).unknown.length =
      items.length) ∧
    (∀ r, r ∈ (groupByLevel items).local_ ↔ r ∈ items ∧ classify r = .localB) ∧
    (∀ r, r ∈ (groupByLevel items).state ↔ r ∈ items ∧ classify r = .stateB) ∧
    (∀ r, r ∈ (groupByLevel items).federal ↔ r ∈ items ∧ classify r = .federalB) ∧
    (∀ r, r ∈ (groupByLevel items).unknown ↔ r ∈ items ∧ classify r = .unknownB) ∧
    (∀ r : ObligationRecord, r.level = some "Local Council" → classify r = .localB) ∧
    (∀ r : ObligationRecord, r.level = none → classify r = .unknownB) := by
  rw [groupByLevel_eq_buckets]
  refine ⟨bucketOf_length_sum items, ?_, ?_, ?_, ?_, ?_, ?_⟩
  · intro r; simp [bucketOf, List.mem_filter]
  · intro r; simp [bucketOf, List.mem_filter]
  · intro r; simp [bucketOf, List.mem_filter]
  · intro r; simp [bucketOf, List.mem_filter]
  · intro r h
    simp only [classify, h]
    decide
  · intro r h
    simp only [classify, h]
    decide

/-- C6 witness: a record with `level: "Local Council"` is classified
`local`. -/
theorem claim6_witness :
    classify { level := some "Local Council", regulator := none,
               obligation := none, source_url := "u", activity := "a",
               postcode := "p" } = .localB :=
  (claim6_group_partition []).2.2.2.2.2.1 _ rfl

/-! ## C1: the orchestrator throws on every valid request -/

/-- C1 fails on the code: for a valid request (both mandatory fields
present) with a healthy session, `scrapeAll` does not return an `ok: true`
envelope — whatever the queries return, it throws the `TypeError` raised
by spreading the absent `SOURCES.GOVHACK_LINKS` property (line 316) while
assembling `datasets_used.links`.  The fail-fast half of the claim does
hold: with a mandatory field missing, the run fails with the validation
error before the session is even built. -/
theorem claim1_valid_request_throws :
    (∀ (inp : ScrapeInput) search,
        jsTruthyS inp.postcode = true → jsTruthyS inp.activityDescription = true →
        scrapeAll (.ok ()) search (some inp) =
          .error "TypeError: spread of undefined is not iterable") ∧
    (∀ build search (inp : ScrapeInput),
        (jsTruthyS inp.postcode && jsTruthyS inp.activityDescription) = false →
        scrapeAll build search (some inp) =
          .error "postcode and activityDescription are required") := by
  constructor
  · intro inp search h1 h2
    unfold scrapeAll
    simp only [Option.getD_some, h1, h2, Bool.and_self, Bool.not_true,
      Bool.false_eq_true, if_false]
    rfl
  · intro build search inp h
    unfold scrapeAll
    simp only [Option.getD_some, h, Bool.not_false, if_true]

/-- C1 witness: a concrete valid request crashes with the `TypeError`
even though every query succeeds. -/
theorem claim1_witness :
    scrapeAll (.ok ()) (fun _ _ => .ok [])
      (some { postcode := some "3066",
              activityDescription := some "Café / Restaurant" }) =
    .error "TypeError: spread of undefined is not iterable" :=
  claim1_valid_request_throws.1 _ _ (by decide) (by decide)

/-! ## C2: the nested medicines schedules list is dropped -/

/-- C2 fails on the code: for a request in the documented nested shape —
`usesControlled` set, a medicines flag on, a non-empty
`medicines.schedules` list and no top-level `schedules` property — the
pipeline plans only `"scheduled medicines"` and `"pharmacy"`: line 299
overwrites the nested list with the absent top-level
`controlledSubstances.schedules` (giving `[]`), so `"poisons permit"` is
never executed. -/
theorem claim2_poisons_permit_dropped (m : MedicinesFlags)
    (hflag : (m.dispense || m.wholesale || m.storeOnly) = true)
    (l : List String) (hsched : m.schedules = some l) (hne : l ≠ []) :
    plannedSupplementalPhrases { usesControlled := true, medicines := some m } =
      ["scheduled medicines", "pharmacy"] ∧
    "poisons permit" ∉
      plannedSupplementalPhrases { usesControlled := true, medicines := some m } := by
  have hwants :
      supplementalWants (mkSuppFlags { usesControlled := true, medicines := some m }) =
        ["scheduled medicines", "pharmacy"] := by
    simp [supplementalWants, mkSuppFlags, spreadMedicines, hflag]
  constructor
  · simp [plannedSupplementalPhrases, hwants]
    decide
  · simp [plannedSupplementalPhrases, hwants]
    decide

/-- C2 witness: the failing input of the claim, with schedules `["S2",
"S8"]` nested under `medicines` exactly as the endpoint documentation
shows. -/
theorem claim2_witness :
    plannedSupplementalPhrases
        { usesControlled := true,
          medicines := some { dispense := true, schedules := some ["S2", "S8"] } } =
      ["scheduled medicines", "pharmacy"] ∧
    "poisons permit" ∉
      plannedSupplementalPhrases
        { usesControlled := true,
          medicines := some { dispense := true, schedules := some ["S2", "S8"] } } :=
  claim2_poisons_permit_dropped _ rfl ["S2", "S8"] rfl (by decide)

/-! ## C8: the extractor scenario -/

theorem plain_ne_lt {c : Char} (h : c ∈ plainChars) :
    (('<' : Char) == c.toLower) = false := by
  fin_cases h <;> rfl

theorem ciPre_lt_false {c : Char} (hc : c ∈ plainChars) (ls cs : List Char) :
    ciPre ('<' :: ls) (c :: cs) = false := by
  rw [show ciPre ('<' :: ls) (c :: cs) =
        ((('<' : Char).toLower == c.toLower) && ciPre ls cs) from rfl]
  rw [show ('<' : Char).toLower = '<' from rfl, plain_ne_lt hc, Bool.false_and]

theorem scanFirst_cons_of_none {α : Type} {m : List Char → Option α} {c : Char}
    {cs : List Char} (h : m (c :: cs) = none) :
    scanFirst m (c :: cs) = scanFirst m cs := by
  simp [scanFirst, h]

theorem scanFirst_cons_of_some {α : Type} {m : List Char → Option α} {c : Char}
    {cs : List Char} {r : α} (h : m (c :: cs) = some r) :
    scanFirst m (c :: cs) = some r := by
  simp [scanFirst, h]

theorem scanFirst_plain_seg {α : Type} (m : List Char → Option α) (t l : List Char)
    (hplain : ∀ c ∈ t, c ∈ plainChars)
    (hm : ∀ c cs, c ∈ plainChars → m (c :: cs) = none) :
    scanFirst m (t ++ l) = scanFirst m l := by
  induction t with
  | nil => rfl
  | cons c ts ih =>
    rw [List.cons_append,
      scanFirst_cons_of_none (hm c _ (hplain c (List.mem_cons_self _ _)))]
    exact ih fun c hc => hplain c (List.mem_cons_of_mem _ hc)

theorem titleAt_plain_head {c : Char} (hc : c ∈ plainChars) (cs : List Char) :
    titleAt (c :: cs) = none := by
  simp [titleAt, matchHeading, matchTitleAnchor, ciPre_lt_false hc]

theorem linkAt_plain_head {c : Char} (hc : c ∈ plainChars) (cs : List Char) :
    linkAt (c :: cs) = none := by
  simp [linkAt, ciPre_lt_false hc]

theorem litTerm_plain_head {c : Char} (hc : c ∈ plainChars) (ls cs : List Char) :
    litTerm '<' ls (c :: cs) = none := by
  simp [litTerm, ciPre_lt_false hc]

theorem closeTagTerm_plain_head {c : Char} (hc : c ∈ plainChars) (cs : List Char) :
    closeTagTerm (c :: cs) = none := by
  have hne : c ≠ '<' := by
    intro h
    subst h
    exact absurd hc (by decide)
  unfold closeTagTerm
  split
  · rename_i rest heq
    injection heq with h1 h2
    exact absurd h1 hne
  · rfl

theorem ciPre_hybrid_false (p : List Char) :
    ∀ (t K : List Char), (∀ c ∈ t, c ∈ plainChars) →
    (∀ x ∈ p, (x.toLower == '<') = false) →
    (∃ x ∈ p, ∀ c ∈ plainChars, (x.toLower == c.toLower) = false) →
    ciPre p (t ++ '<' :: K) = false := by
  induction p with
  | nil =>
    intro t K _ _ hhard
    obtain ⟨x, hx, _⟩ := hhard
    simp at hx
  | cons x ps ih =>
    intro t K hplain hlt hhard
    cases t with
    | nil =>
      rw [List.nil_append,
        show ciPre (x :: ps) ('<' :: K) =
          ((x.toLower == ('<' : Char).toLower) && ciPre ps K) from rfl]
      rw [show ('<' : Char).toLower = '<' from rfl,
        hlt x (List.mem_cons_self _ _), Bool.false_and]
    | cons c ts =>
      rw [List.cons_append,
        show ciPre (x :: ps) (c :: (ts ++ '<' :: K)) =
          ((x.toLower == c.toLower) && ciPre ps (ts ++ '<' :: K)) from rfl]
      by_cases hx : (x.toLower == c.toLower) = true
      · rw [hx, Bool.true_and]
        obtain ⟨y, hy, hyhard⟩ := hhard
        rcases List.mem_cons.mp hy with rfl | hy2
        · exact absurd hx
            (by rw [hyhard c (hplain c (List.mem_cons_self _ _))]; simp)
        · exact ih ts K (fun c hc => hplain c (List.mem_cons_of_mem _ hc))
            (fun z hz => hlt z (List.mem_cons_of_mem _ hz)) ⟨y, hy2, hyhard⟩
      · rw [Bool.eq_false_iff.mpr hx, Bool.false_and]

theorem classedTextAt_plain_head (names : List (List Char)) {c : Char}
    (t K : List Char) (hc : c ∈ plainChars) (ht : ∀ c' ∈ t, c' ∈ plainChars) :
    classedTextAt names (c :: (t ++ '<' :: K)) = none := by
  have hfail : ciPre ['c', 'l', 'a', 's', 's', '=', '\"'] (c :: (t ++ '<' :: K)) = false := by
    refine ciPre_hybrid_false _ (c :: t) K ?_ (by decide) ⟨'=', by decide, by decide⟩
    intro c' hc'
    rcases List.mem_cons.mp hc' with rfl | h2
    · exact hc
    · exact ht c' h2
  simp [classedTextAt, classNameAlt, hfail]

theorem scanFirst_classed_plain_seg (names : List (List Char)) (t K : List Char)
    (ht : ∀ c ∈ t, c ∈ plainChars) :
    scanFirst (classedTextAt names) (t ++ '<' :: K) =
      scanFirst (classedTextAt names) ('<' :: K) := by
  induction t with
  | nil => rfl
  | cons c ts ih =>
    rw [List.cons_append,
      scanFirst_cons_of_none
        (classedTextAt_plain_head names ts K (ht c (List.mem_cons_self _ _))
          (fun c' hc' => ht c' (List.mem_cons_of_mem _ hc')))]
    exact ih fun c' hc' => ht c' (List.mem_cons_of_mem _ hc')

theorem captureUntil_through (term : List Char → Option (List Char))
    (t l cap rest : List Char)
    (hnone : ∀ c cs, c ∈ t → term (c :: cs) = none)
    (h : captureUntil term l = some (cap, rest)) :
    captureUntil term (t ++ l) = some (t ++ cap, rest) := by
  induction t with
  | nil => simpa using h
  | cons c ts ih =>
    rw [List.cons_append]
    rw [show captureUntil term (c :: (ts ++ l)) =
          (match term (c :: (ts ++ l)) with
           | some after => some ([], after)
           | none => (captureUntil term (ts ++ l)).map fun p => (c :: p.1, p.2))
        from rfl]
    rw [hnone c _ (List.mem_cons_self _ _)]
    rw [ih fun c' cs hc' => hnone c' cs (List.mem_cons_of_mem _ hc')]
    rfl

theorem find_markers_none {c : Char} (hc : c ∈ plainChars) (X : List Char) :
    cardMarkers.find? (fun l => ciPre (l.1 :: l.2) (c :: X)) = none := by
  simp [cardMarkers, List.find?, ciPre_lt_false hc]

theorem splitMarkers_plain_seg (t rest cur : List Char)
    (ht : ∀ c ∈ t, c ∈ plainChars) :
    splitMarkers cardMarkers 0 cur (t ++ rest) =
      splitMarkers cardMarkers 0 (t.reverse ++ cur) rest := by
  induction t generalizing cur with
  | nil => simp
  | cons c ts ih =>
    rw [List.cons_append]
    rw [show splitMarkers cardMarkers 0 cur (c :: (ts ++ rest)) =
          (match cardMarkers.find? (fun l => ciPre (l.1 :: l.2) (c :: (ts ++ rest))) with
           | some l => cur.reverse :: splitMarkers cardMarkers l.2.length [] (ts ++ rest)
           | none => splitMarkers cardMarkers 0 (c :: cur) (ts ++ rest))
        from rfl]
    rw [find_markers_none (ht c (List.mem_cons_self _ _))]
    rw [ih (c :: cur) fun c' hc' => ht c' (List.mem_cons_of_mem _ hc')]
    simp

/-- C8: for every markup fragment made of one card segment holding one
`<h3>` title of plain text free of the "state"/"commonwealth"/"federal"
keywords, one `class="regulator"` span of plain text free of the
council/shire/"city of" markers, and a first anchor with the relative
`href="/x"`, the extractor returns exactly one record, whose `sourceUrl`
is the absolute `https://ablis.business.gov.au/x` and whose `level` is
null; its obligation and regulator are the cleaned title and span
texts. -/
theorem mkFragment_split (title reg : List Char)
    (hT : ∀ c ∈ title, c ∈ plainChars) (hR : ∀ c ∈ reg, c ∈ plainChars) :
    splitMarkers cardMarkers 0 [] (mkFragment title reg) =
      [[], chunkC8 title reg] := by
  rw [show mkFragment title reg =
        "<article><h3>".toList ++ (title ++ ("</h3><span class=\"regulator\">".toList ++
          (reg ++ "</span><a href=\"/x\">Details</a>".toList)))
      from by simp [mkFragment]]
  rw [show splitMarkers cardMarkers 0 []
        ("<article><h3>".toList ++ (title ++ ("</h3><span class=\"regulator\">".toList ++
          (reg ++ "</span><a href=\"/x\">Details</a>".toList)))) =
      [] :: splitMarkers cardMarkers 0 ("><h3>".toList.reverse)
        (title ++ ("</h3><span class=\"regulator\">".toList ++
          (reg ++ "</span><a href=\"/x\">Details</a>".toList)))
      from rfl]
  rw [splitMarkers_plain_seg title _ _ hT]
  rw [show splitMarkers cardMarkers 0 (title.reverse ++ "><h3>".toList.reverse)
        ("</h3><span class=\"regulator\">".toList ++
          (reg ++ "</span><a href=\"/x\">Details</a>".toList)) =
      splitMarkers cardMarkers 0
        ("</h3><span class=\"regulator\">".toList.reverse ++
          (title.reverse ++ "><h3>".toList.reverse))
        (reg ++ "</span><a href=\"/x\">Details</a>".toList)
      from rfl]
  rw [splitMarkers_plain_seg reg _ _ hR]
  rw [show splitMarkers cardMarkers 0
        (reg.reverse ++ ("</h3><span class=\"regulator\">".toList.reverse ++
          (title.reverse ++ "><h3>".toList.reverse)))
        "</span><a href=\"/x\">Details</a>".toList =
      [("</span><a href=\"/x\">Details</a>".toList.reverse ++
        (reg.reverse ++ ("</h3><span class=\"regulator\">".toList.reverse ++
          (title.reverse ++ "><h3>".toList.reverse)))).reverse]
      from rfl]
  simp [chunkC8, List.reverse_append]

theorem scanFirst_skip_concrete {α : Type} (m : List Char → Option α) (g l : List Char)
    (h : ∀ zs ∈ g.tails, zs ≠ [] → m (zs ++ l) = none) :
    scanFirst m (g ++ l) = scanFirst m l := by
  induction g with
  | nil => rfl
  | cons c gs ih =>
    rw [List.cons_append,
      scanFirst_cons_of_none
        (show m (c :: (gs ++ l)) = none from
          h (c :: gs) ((List.mem_tails _ _).mpr (List.suffix_refl _)) (by simp))]
    exact ih fun zs hz hne =>
      h zs ((List.mem_tails _ _).mpr
        (((List.mem_tails _ _).mp hz).trans (List.suffix_cons c gs))) hne

theorem titleAt_of_h3 {s cap : List Char}
    (h : matchHeading ['h', '3'] s = some cap) : titleAt s = some cap := by
  simp [titleAt, h]

theorem chunk_title_scan (title reg : List Char)
    (hT : ∀ c ∈ title, c ∈ plainChars) :
    scanFirst titleAt (chunkC8 title reg) = some title := by
  have hBX : captureUntil (litTerm '<' ['/', 'h', '3', '>'])
      ("</h3><span class=\"regulator\">".toList ++
        (reg ++ "</span><a href=\"/x\">Details</a>".toList)) =
      some ([], "<span class=\"regulator\">".toList ++
        (reg ++ "</span><a href=\"/x\">Details</a>".toList)) := rfl
  have hcap := captureUntil_through _ title _ _ _
    (fun c cs hc => litTerm_plain_head (hT c hc) _ _) hBX
  have hmh : matchHeading ['h', '3'] ('<' :: 'h' :: '3' :: '>' ::
      (title ++ ("</h3><span class=\"regulator\">".toList ++
        (reg ++ "</span><a href=\"/x\">Details</a>".toList)))) =
      (captureUntil (litTerm '<' ['/', 'h', '3', '>'])
        (title ++ ("</h3><span class=\"regulator\">".toList ++
          (reg ++ "</span><a href=\"/x\">Details</a>".toList)))).map Prod.fst := rfl
  rw [hcap] at hmh
  unfold chunkC8
  rw [scanFirst_cons_of_none (show titleAt ('>' :: '<' :: 'h' :: '3' :: '>' ::
    (title ++ ("</h3><span class=\"regulator\">".toList ++
      (reg ++ "</span><a href=\"/x\">Details</a>".toList)))) = none from rfl)]
  rw [scanFirst_cons_of_some (titleAt_of_h3 hmh)]
  simp

theorem chunk_agency_scan (title reg : List Char)
    (hT : ∀ c ∈ title, c ∈ plainChars) (hR : ∀ c ∈ reg, c ∈ plainChars) :
    scanFirst (classedTextAt agencyNames) (chunkC8 title reg) = some reg := by
  unfold chunkC8
  rw [show ('>' :: '<' :: 'h' :: '3' :: '>' ::
        (title ++ ("</h3><span class=\"regulator\">".toList ++
          (reg ++ "</span><a href=\"/x\">Details</a>".toList)))) =
      "><h3>".toList ++ (title ++ ("</h3><span class=\"regulator\">".toList ++
        (reg ++ "</span><a href=\"/x\">Details</a>".toList)))
      from rfl]
  rw [scanFirst_skip_concrete _ "><h3>".toList _
    (by intro zs hz hne; fin_cases hz <;> first | (exact absurd rfl hne) | rfl)]
  rw [show ("</h3><span class=\"regulator\">".toList ++
        (reg ++ "</span><a href=\"/x\">Details</a>".toList)) =
      '<' :: ("/h3><span class=\"regulator\">".toList ++
        (reg ++ "</span><a href=\"/x\">Details</a>".toList))
      from rfl]
  rw [scanFirst_classed_plain_seg agencyNames title _ hT]
  rw [show ('<' :: ("/h3><span class=\"regulator\">".toList ++
        (reg ++ "</span><a href=\"/x\">Details</a>".toList))) =
      "</h3><span ".toList ++ ("class=\"regulator\">".toList ++
        (reg ++ "</span><a href=\"/x\">Details</a>".toList))
      from rfl]
  rw [scanFirst_skip_concrete _ "</h3><span ".toList _
    (by intro zs hz hne; fin_cases hz <;> first | (exact absurd rfl hne) | rfl)]
  have hAX : captureUntil closeTagTerm "</span><a href=\"/x\">Details</a>".toList =
      some ([], "<a href=\"/x\">Details</a>".toList) := rfl
  have hcap := captureUntil_through _ reg _ _ _
    (fun c cs hc => closeTagTerm_plain_head (hR c hc) _) hAX
  have hm : classedTextAt agencyNames
      ("class=\"regulator\">".toList ++
        (reg ++ "</span><a href=\"/x\">Details</a>".toList)) =
      (captureUntil closeTagTerm
        (reg ++ "</span><a href=\"/x\">Details</a>".toList)).map Prod.fst := rfl
  rw [hcap] at hm
  rw [show ("class=\"regulator\">".toList ++
        (reg ++ "</span><a href=\"/x\">Details</a>".toList)) =
      'c' :: ("lass=\"regulator\">".toList ++
        (reg ++ "</span><a href=\"/x\">Details</a>".toList))
      from rfl] at hm ⊢
  rw [scanFirst_cons_of_some hm]
  simp

theorem chunk_level_scan (title reg : List Char)
    (hT : ∀ c ∈ title, c ∈ plainChars) (hR : ∀ c ∈ reg, c ∈ plainChars) :
    scanFirst (classedTextAt levelNames) (chunkC8 title reg) = none := by
  unfold chunkC8
  rw [show ('>' :: '<' :: 'h' :: '3' :: '>' ::
        (title ++ ("</h3><span class=\"regulator\">".toList ++
          (reg ++ "</span><a href=\"/x\">Details</a>".toList)))) =
      "><h3>".toList ++ (title ++ ("</h3><span class=\"regulator\">".toList ++
        (reg ++ "</span><a href=\"/x\">Details</a>".toList)))
      from rfl]
  rw [scanFirst_skip_concrete _ "><h3>".toList _
    (by intro zs hz hne; fin_cases hz <;> first | (exact absurd rfl hne) | rfl)]
  rw [show ("</h3><span class=\"regulator\">".toList ++
        (reg ++ "</span><a href=\"/x\">Details</a>".toList)) =
      '<' :: ("/h3><span class=\"regulator\">".toList ++
        (reg ++ "</span><a href=\"/x\">Details</a>".toList))
      from rfl]
  rw [scanFirst_classed_plain_seg levelNames title _ hT]
  rw [show ('<' :: ("/h3><span class=\"regulator\">".toList ++
        (reg ++ "</span><a href=\"/x\">Details</a>".toList))) =
      "</h3><span class=\"regulator\">".toList ++
        (reg ++ "</span><a href=\"/x\">Details</a>".toList)
      from rfl]
  rw [scanFirst_skip_concrete _ "</h3><span class=\"regulator\">".toList _
    (by intro zs hz hne; fin_cases hz <;> first | (exact absurd rfl hne) | rfl)]
  rw [show (reg ++ "</span><a href=\"/x\">Details</a>".toList) =
      reg ++ ('<' :: "/span><a href=\"/x\">Details</a>".toList) from rfl]
  rw [scanFirst_classed_plain_seg levelNames reg _ hR]
  rfl

theorem chunk_link_scan (title reg : List Char)
    (hT : ∀ c ∈ title, c ∈ plainChars) (hR : ∀ c ∈ reg, c ∈ plainChars) :
    scanFirst linkAt (chunkC8 title reg) = some "/x".toList := by
  unfold chunkC8
  rw [show ('>' :: '<' :: 'h' :: '3' :: '>' ::
        (title ++ ("</h3><span class=\"regulator\">".toList ++
          (reg ++ "</span><a href=\"/x\">Details</a>".toList)))) =
      "><h3>".toList ++ (title ++ ("</h3><span class=\"regulator\">".toList ++
        (reg ++ "</span><a href=\"/x\">Details</a>".toList)))
      from rfl]
  rw [scanFirst_skip_concrete _ "><h3>".toList _
    (by intro zs hz hne; fin_cases hz <;> first | (exact absurd rfl hne) | rfl)]
  rw [scanFirst_plain_seg _ title _ hT fun c cs hc => linkAt_plain_head hc cs]
  rw [scanFirst_skip_concrete _ "</h3><span class=\"regulator\">".toList _
    (by intro zs hz hne; fin_cases hz <;> first | (exact absurd rfl hne) | rfl)]
  rw [scanFirst_plain_seg _ reg _ hR fun c cs hc => linkAt_plain_head hc cs]
  rfl

theorem clean_textOpt (t : List Char) :
    clean (if t.isEmpty then none else some t) = clean (some t) := by
  cases t <;> simp [clean]

theorem chunkC8_cardItem (title reg : List Char) (activity postcode : String)
    (hT : ∀ c ∈ title, c ∈ plainChars) (hR : ∀ c ∈ reg, c ∈ plainChars)
    (hA1 : inclList "council".toList
      (((clean (some reg)).getD []).map Char.toLower) = false)
    (hA2 : inclList "shire".toList
      (((clean (some reg)).getD []).map Char.toLower) = false)
    (hA3 : inclList "city of".toList
      (((clean (some reg)).getD []).map Char.toLower) = false)
    (hK1 : inclList "state".toList
      (((clean (some title)).getD []).map Char.toLower) = false)
    (hK2 : inclList "commonwealth".toList
      (((clean (some title)).getD []).map Char.toLower) = false)
    (hK3 : inclList "federal".toList
      (((clean (some title)).getD []).map Char.toLower) = false) :
    cardItem activity postcode (chunkC8 title reg) =
      some { level := none
             regulator := jsOrNoneL (clean (some reg))
             obligation := jsOrNoneL (clean (some title))
             source_url := "https://ablis.business.gov.au/x"
             activity := activity
             postcode := postcode } := by
  have h1 : textBetweenBy titleAt (chunkC8 title reg) =
      (if title.isEmpty then none else some title) := by
    simp [textBetweenBy, chunk_title_scan title reg hT]
  have h2 : textBetweenBy (classedTextAt agencyNames) (chunkC8 title reg) =
      (if reg.isEmpty then none else some reg) := by
    simp [textBetweenBy, chunk_agency_scan title reg hT hR]
  have h3 : textBetweenBy (classedTextAt levelNames) (chunkC8 title reg) = none := by
    simp [textBetweenBy, chunk_level_scan title reg hT hR]
  have h4 : linkHref (chunkC8 title reg) =
      some "https://ablis.business.gov.au/x".toList := by
    rw [linkHref, chunk_link_scan title reg hT hR]
    rfl
  have hcn : clean none = none := rfl
  have hfn : jsFalsyC none = true := rfl
  have hsrc : jsOrStr (some (String.mk "https://ablis.business.gov.au/x".toList))
      "https://ablis.business.gov.au/" = "https://ablis.business.gov.au/x" := rfl
  simp only [cardItem, h1, h2, h3, h4, clean_textOpt, hcn, hfn, hsrc, hA1, hA2,
    hA3, hK1, hK2, hK3, Option.isNone_some, Bool.and_false, Bool.false_and,
    Bool.true_and, Bool.or_self, if_false, ite_self, Option.map_some']
  simp [hfn, jsOrNoneL]

theorem claim8_extractor_scenario (title reg : List Char) (activity postcode : String)
    (hT : ∀ c ∈ title, c ∈ plainChars) (hR : ∀ c ∈ reg, c ∈ plainChars)
    (hA1 : inclList "council".toList
      (((clean (some reg)).getD []).map Char.toLower) = false)
    (hA2 : inclList "shire".toList
      (((clean (some reg)).getD []).map Char.toLower) = false)
    (hA3 : inclList "city of".toList
      (((clean (some reg)).getD []).map Char.toLower) = false)
    (hK1 : inclList "state".toList
      (((clean (some title)).getD []).map Char.toLower) = false)
    (hK2 : inclList "commonwealth".toList
      (((clean (some title)).getD []).map Char.toLower) = false)
    (hK3 : inclList "federal".toList
      (((clean (some title)).getD []).map Char.toLower) = false) :
    parseAblisResults (String.mk (mkFragment title reg)) activity postcode =
      [{ level := none
         regulator := jsOrNoneL (clean (some reg))
         obligation := jsOrNoneL (clean (some title))
         source_url := "https://ablis.business.gov.au/x"
         activity := activity
         postcode := postcode }] := by
  have hcard := chunkC8_cardItem title reg activity postcode hT hR hA1 hA2 hA3 hK1 hK2 hK3
  have hnil : cardItem activity postcode [] = none := rfl
  rw [show parseAblisResults (String.mk (mkFragment title reg)) activity postcode =
        dedupeBy ((splitMarkers cardMarkers 0 [] (mkFragment title reg)).filterMap
          (cardItem activity postcode)) recordKey
      from rfl]
  rw [mkFragment_split title reg hT hR]
  simp [List.filterMap_cons, hnil, hcard, dedupeBy, dedupeByAux]

/-- C8 witness: the scenario at a concrete title and regulator. -/
theorem claim8_witness :
    parseAblisResults
        (String.mk (mkFragment "food business licence".toList "health department".toList))
        "act" "3066" =
      [{ level := none
         regulator := some "health department"
         obligation := some "food business licence"
         source_url := "https://ablis.business.gov.au/x"
         activity := "act"
         postcode := "3066" }] :=
  claim8_extractor_scenario "food business licence".toList "health department".toList
    "act" "3066" (by decide) (by decide) (by decide) (by decide) (by decide)
    (by decide) (by decide) (by decide)

/-! ## C10: every emitted record has a non-null source URL -/

/-- C10: whatever the markup, every record the extractor emits comes from
some card chunk, carries a non-empty `source_url`, and when its chunk has
no anchor at all the `source_url` is the fixed ABLIS home URL — so the
"at least one identifying field non-null" invariant always holds through
`sourceUrl` alone. -/
theorem claim10_source_url_nonnull (html activity postcode : String) :
    ∀ r ∈ parseAblisResults html activity postcode,
      ∃ chunk ∈ splitMarkers cardMarkers 0 [] html.toList,
        cardItem activity postcode chunk = some r ∧
        r.source_url ≠ "" ∧
        (linkHref chunk = none → r.source_url = "https://ablis.business.gov.au/") := by
  intro r hr
  rw [show parseAblisResults html activity postcode =
        dedupeBy ((splitMarkers cardMarkers 0 [] html.toList).filterMap
          (cardItem activity postcode)) recordKey from rfl] at hr
  have hr2 := (dedupeByAux_sublist recordKey [] _).subset hr
  obtain ⟨chunk, hc, hitem⟩ := List.mem_filterMap.mp hr2
  have hsrc : r.source_url =
      jsOrStr ((linkHref chunk).map String.mk) "https://ablis.business.gov.au/" := by
    simp only [cardItem] at hitem
    split at hitem
    · simp at hitem
    · have h := Option.some.inj hitem
      rw [← h]
  refine ⟨chunk, hc, hitem, ?_, ?_⟩
  · rw [hsrc]
    cases h : linkHref chunk with
    | none => simp [jsOrStr]
    | some l =>
      simp only [Option.map_some', jsOrStr]
      split_ifs with h2
      · decide
      · exact h2
  · intro h0
    rw [hsrc, h0]
    rfl

/-- C10 witness: an anchor-free card yields a record whose `source_url`
is the ABLIS home URL. -/
theorem claim10_witness :
    ∃ chunk ∈ splitMarkers cardMarkers 0 [] ("<article><h3>Permit</h3>").toList,
      cardItem "a" "p" chunk =
        some { level := none, regulator := none, obligation := some "Permit",
               source_url := "https://ablis.business.gov.au/", activity := "a",
               postcode := "p" } ∧
      ({ level := none, regulator := none, obligation := some "Permit",
         source_url := "https://ablis.business.gov.au/", activity := "a",
         postcode := "p" } : ObligationRecord).source_url ≠ "" ∧
      (linkHref chunk = none →
        ({ level := none, regulator := none, obligation := some "Permit",
           source_url := "https://ablis.business.gov.au/", activity := "a",
           postcode := "p" } : ObligationRecord).source_url =
          "https://ablis.business.gov.au/") :=
  claim10_source_url_nonnull "<article><h3>Permit</h3>" "a" "p" _
    (by rw [show parseAblisResults "<article><h3>Permit</h3>" "a" "p" =
          [{ level := none, regulator := none, obligation := some "Permit",
             source_url := "https://ablis.business.gov.au/", activity := "a",
             postcode := "p" }] from rfl]
        exact List.mem_singleton.mpr rfl)

end RedTape
